import Mathlib

/-!
Formal model of the `static-builder` build-time static resource compiler
(`src/lib.rs`).  Logical URL paths are modelled as lists of path components
(an absolute path `/a/b` is `["a", "b"]`, the root `/` is `[]`), mirroring the
component view that `std::path::PathBuf` exposes for the absolute, normalised
paths this crate manipulates.  Filesystem reads, the Tera template engine and
the jotdown converter are external collaborators; they enter the model as
oracles or as structured dispatch outcomes, exactly at the points where
`lib.rs` calls out to them.
-/

/-- Splits a list of characters at the last `.`, returning the part before and
the part after it, or `none` when no `.` occurs.  This is the helper on which
the Rust `Path::extension` / `Path::set_extension` semantics are modelled. -/
def StaticBuilder.lastDotSplit : List Char → Option (List Char × List Char)
  | [] => none
  | c :: rest =>
    match lastDotSplit rest with
    | some (b, a) => some (c :: b, a)
    | none => if c = '.' then some ([], rest) else none

open StaticBuilder

/-- Extension of a file name, with Rust `Path::extension` semantics: the
portion after the last `.`, except that a name whose only `.` is its first
character (a hidden file such as `.bashrc`) has no extension. -/
def StaticBuilder.extension (s : String) : Option String :=
  match lastDotSplit s.data with
  | some (before, after) => if before = [] then none else some (String.mk after)
  | none => none

/-- Rust `PathBuf::set_extension` on a file name: replace the extension when
one exists, otherwise append `.` and the new extension. -/
def StaticBuilder.setExtension (s ext : String) : String :=
  match lastDotSplit s.data with
  | some (before, _) =>
    if before = [] then s ++ "." ++ ext else String.mk before ++ "." ++ ext
  | none => s ++ "." ++ ext

/-- Display string of an absolute path given by its components, as
`PathBuf::display` prints it: `[]` is `/`, `["a", "b"]` is `/a/b`. -/
def StaticBuilder.display : List String → String
  | [] => "/"
  | [c] => "/" ++ c
  | c :: cs => "/" ++ c ++ display cs

/-- Display string of `parent.join("")`: Rust's `Path::join("")` appends a
trailing separator unless the path already ends in one, so `/dir` becomes
`/dir/` and the root `/` stays `/`. -/
def StaticBuilder.joinEmptyDisplay (p : List String) : String :=
  if p = [] then "/" else display p ++ "/"

/-- First step of `Resource::paths` (src/lib.rs:57-59): when the logical
path's extension is `dj`, rewrite it to `html` in place. -/
def StaticBuilder.rewriteDj (p : List String) : List String :=
  match p.getLast? with
  | some l => if extension l = some "dj" then p.dropLast ++ [setExtension l "html"] else p
  | none => p

/-- Model of `Resource::paths` (src/lib.rs:54-70): rewrite a `dj` extension to
`html`, then, when the resulting file name is `index.html`, add the directory
aliases (special-casing the site root); otherwise the path itself is the only
alias.  Returns the display strings of the alias paths, which is how the
synthesizer consumes them (`p.display().to_string()`). -/
def StaticBuilder.Resource.paths (p : List String) : List String :=
  let q := rewriteDj p
  if q.getLast? = some "index.html" then
    if q = ["index.html"] then
      [display q, "/"]
    else
      [display q, display q.dropLast, joinEmptyDisplay q.dropLast]
  else
    [display q]

/-- Display of a path extended by one final component appends a separator and
that component, provided the path is not the root. -/
theorem StaticBuilder.display_append_singleton (xs : List String) (y : String) (h : xs ≠ []) :
    display (xs ++ [y]) = display xs ++ "/" ++ y := by
  induction xs with
  | nil => exact absurd rfl h
  | cons a tail ih =>
    cases tail with
    | nil => simp [display, String.append_assoc]
    | cons b rest =>
      have ih2 := ih (by simp)
      simp only [List.cons_append] at ih2 ⊢
      simp only [display] at ih2 ⊢
      rw [ih2]
      simp [String.append_assoc]

/-- C3: a logical path that rewrites to the site root `/index.html` gets
exactly the two aliases `/index.html` and `/` (src/lib.rs:62-63). -/
theorem StaticBuilder.claim_root_index_aliases (p : List String)
    (h : rewriteDj p = ["index.html"]) :
    Resource.paths p = ["/index.html", "/"] ∧ (Resource.paths p).Nodup := by
  simp only [Resource.paths, h]
  decide

/-- Witness for `claim_root_index_aliases` at the root logical path
`/index.html`. -/
theorem StaticBuilder.claim_root_index_aliases_witness :
    Resource.paths ["index.html"] = ["/index.html", "/"] ∧
    (Resource.paths ["index.html"]).Nodup :=
  claim_root_index_aliases ["index.html"] (by decide)

/-- C2: a logical path that rewrites to `<dir>/index.html` with `<dir>` not
the root gets exactly the three pairwise-distinct aliases: the file path, the
parent directory without trailing slash, and the parent directory with
trailing slash (src/lib.rs:64-65). -/
theorem StaticBuilder.claim_dir_index_aliases (p : List String)
    (h1 : (rewriteDj p).getLast? = some "index.html")
    (h2 : rewriteDj p ≠ ["index.html"]) :
    Resource.paths p =
      [display (rewriteDj p), display (rewriteDj p).dropLast,
        display (rewriteDj p).dropLast ++ "/"] ∧
    (Resource.paths p).Nodup := by
  have hq : (rewriteDj p).dropLast ++ ["index.html"] = rewriteDj p :=
    List.dropLast_append_getLast? "index.html" (Option.mem_def.mpr h1)
  have hd : (rewriteDj p).dropLast ≠ [] := by
    intro h0
    apply h2
    rw [← hq, h0]
    rfl
  have hdisp : display (rewriteDj p) =
      display (rewriteDj p).dropLast ++ "/" ++ "index.html" := by
    conv_lhs => rw [← hq]
    exact display_append_singleton _ _ hd
  have hone : ("/" : String).length = 1 := rfl
  have hidx : ("index.html" : String).length = 10 := rfl
  have hlen1 : (display (rewriteDj p)).length =
      (display (rewriteDj p).dropLast).length + 11 := by
    rw [hdisp, String.length_append, String.length_append, hone, hidx]
  have hlen2 : (display (rewriteDj p).dropLast ++ "/").length =
      (display (rewriteDj p).dropLast).length + 1 := by
    rw [String.length_append, hone]
  have hpaths : Resource.paths p =
      [display (rewriteDj p), display (rewriteDj p).dropLast,
        display (rewriteDj p).dropLast ++ "/"] := by
    simp only [Resource.paths]
    rw [if_pos h1, if_neg h2, joinEmptyDisplay, if_neg hd]
  refine ⟨hpaths, ?_⟩
  rw [hpaths]
  refine List.Nodup.cons ?_ (List.Nodup.cons ?_ (List.nodup_singleton _))
  · intro hmem
    rcases List.mem_cons.mp hmem with he | hmem2
    · have := congrArg String.length he
      omega
    · have he := List.mem_singleton.mp hmem2
      have := congrArg String.length he
      omega
  · intro hmem
    have he := List.mem_singleton.mp hmem
    have := congrArg String.length he
    omega

/-- Witness for `claim_dir_index_aliases` at the logical path
`/dir/index.html`. -/
theorem StaticBuilder.claim_dir_index_aliases_witness :
    Resource.paths ["dir", "index.html"] = ["/dir/index.html", "/dir", "/dir/"] ∧
    (Resource.paths ["dir", "index.html"]).Nodup := by
  have h := claim_dir_index_aliases ["dir", "index.html"] (by decide) (by decide)
  exact ⟨by rw [h.1]; decide, h.2⟩

/-- C4: a logical path whose file name has extension `dj` is first rewritten
to the same path with a `.html` extension, and when the rewritten file name is
not `index.html` the alias set is exactly that single rewritten path
(src/lib.rs:57-59 and 67-69). -/
theorem StaticBuilder.claim_dj_rewrite_singleton (p : List String) (l : String)
    (hl : p.getLast? = some l) (he : extension l = some "dj") :
    rewriteDj p = p.dropLast ++ [setExtension l "html"] ∧
    (setExtension l "html" ≠ "index.html" →
      Resource.paths p = [display (p.dropLast ++ [setExtension l "html"])]) := by
  have h1 : rewriteDj p = p.dropLast ++ [setExtension l "html"] := by
    unfold rewriteDj
    rw [hl]
    simp [he]
  refine ⟨h1, fun hne => ?_⟩
  simp only [Resource.paths, h1]
  rw [List.getLast?_concat]
  rw [if_neg (by simpa using hne)]

/-- Witness for `claim_dj_rewrite_singleton` at the logical path `/a/b.dj`,
whose single alias is `/a/b.html`. -/
theorem StaticBuilder.claim_dj_rewrite_singleton_witness :
    rewriteDj ["a", "b.dj"] = ["a", "b.html"] ∧
    Resource.paths ["a", "b.dj"] = ["/a/b.html"] := by
  have h := claim_dj_rewrite_singleton ["a", "b.dj"] "b.dj" (by decide) (by decide)
  exact ⟨h.1, h.2 (by decide)⟩

/-- Build-time failures of the pipeline; in the Rust source each of these is a
`panic!` / `.unwrap()` that aborts the build. -/
inductive StaticBuilder.BuildError where
  | profileUnset
  | unmimeable (ext : String)
deriving DecidableEq

/-- Model of `Resource::media_type` (src/lib.rs:83-99): the fixed extension
table, written with the media-type strings the emitted `::mime` constants and
`parse` calls denote.  An unlisted extension is a build failure carrying the
offending extension (`panic!("Unmimeable file extension: ...")`). -/
def StaticBuilder.Resource.media_type : Option String → Except BuildError String
  | some "html" => .ok "text/html; charset=utf-8"
  | some "dj" => .ok "text/html; charset=utf-8"
  | some "css" => .ok "text/css"
  | some "cer" => .ok "application/pkix-cert"
  | some "der" => .ok "application/octet-stream"
  | some "gpg" => .ok "application/pgp-keys"
  | some "ico" => .ok "image/vnd.microsoft.icon"
  | some "js" => .ok "application/json"
  | some "pem" => .ok "text/plain"
  | some "pkbf" => .ok "application/octet-stream"
  | some "png" => .ok "image/png"
  | some "txt" => .ok "text/plain"
  | some ext => .error (.unmimeable ext)
  | none => .ok "application/octet-stream"

/-- The extensions `Resource::media_type` classifies, in source order. -/
def StaticBuilder.supportedExts : List String :=
  ["html", "dj", "css", "cer", "der", "gpg", "ico", "js", "pem", "pkbf", "png", "txt"]

/-- Any extension outside the classifier table is a build failure naming that
extension. -/
theorem StaticBuilder.media_type_unsupported (e : String) (h : e ∉ supportedExts) :
    Resource.media_type (some e) = .error (.unmimeable e) := by
  simp only [supportedExts, List.mem_cons, List.not_mem_nil, or_false, not_or] at h
  rw [StaticBuilder.Resource.media_type.eq_def]
  split <;> simp_all

/-- C5: the classifier returns exactly the fixed table's media type for every
supported extension (and octet-stream for no extension), and fails the build
naming the extension for every other one.  Determinism and stability across
calls hold because `Resource.media_type` is a function of the extension
alone. -/
theorem StaticBuilder.claim_media_type_table :
    supportedExts.map (fun e => Resource.media_type (some e)) =
      [.ok "text/html; charset=utf-8", .ok "text/html; charset=utf-8",
       .ok "text/css", .ok "application/pkix-cert", .ok "application/octet-stream",
       .ok "application/pgp-keys", .ok "image/vnd.microsoft.icon",
       .ok "application/json", .ok "text/plain", .ok "application/octet-stream",
       .ok "image/png", .ok "text/plain"] ∧
    Resource.media_type none = .ok "application/octet-stream" ∧
    ∀ e : String, e ∉ supportedExts →
      Resource.media_type (some e) = .error (.unmimeable e) :=
  ⟨rfl, rfl, media_type_unsupported⟩

/-- Witness for `claim_media_type_table` at the unsupported extension
`xyz`. -/
theorem StaticBuilder.claim_media_type_table_witness :
    Resource.media_type (some "xyz") = .error (.unmimeable "xyz") :=
  claim_media_type_table.2.2 "xyz" (by decide)

/-- Dispatch outcome of `Resource::content` (src/lib.rs:76-80). -/
inductive StaticBuilder.RenderKind where
  | templatedHtml
  | renderedDjot
  | rawBytes
deriving DecidableEq

/-- Content dispatch of `Resource::content` (src/lib.rs:76-80): an `html`
source goes through the template engine, a `dj` source through the djot
renderer and then the template engine, and any other source is read as raw
bytes (`fs::read`), unrendered. -/
def StaticBuilder.Resource.contentDispatch : Option String → RenderKind
  | some "html" => .templatedHtml
  | some "dj" => .renderedDjot
  | _ => .rawBytes

/-- Lower-casing of a string, character by character. -/
def StaticBuilder.lowerStr (s : String) : String :=
  String.mk (s.data.map Char.toLower)

/-- C9: extension dispatch is exact and case-sensitive.  Any extension that
differs from its own lower-casing (in particular any upper- or mixed-case
variant of a supported extension) takes the raw-bytes branch of
`Resource::content`, is left unrewritten by `Resource::paths`, and makes
`Resource::media_type` fail the build naming that extension. -/
theorem StaticBuilder.claim_case_sensitive_dispatch (e : String)
    (hmem : lowerStr e ∈ supportedExts) (hne : e ≠ lowerStr e) :
    Resource.contentDispatch (some e) = .rawBytes ∧
    (∀ p l, p.getLast? = some l → extension l = some e → rewriteDj p = p) ∧
    Resource.media_type (some e) = .error (.unmimeable e) := by
  have hnot : e ∉ supportedExts := by
    intro hmem2
    simp only [supportedExts, List.mem_cons, List.not_mem_nil, or_false] at hmem2
    rcases hmem2 with rfl | rfl | rfl | rfl | rfl | rfl | rfl | rfl | rfl | rfl | rfl | rfl
    all_goals exact hne (by decide)
  have hh : e ≠ "html" := fun h0 => hnot (by rw [h0]; decide)
  have hdj : e ≠ "dj" := fun h0 => hnot (by rw [h0]; decide)
  refine ⟨?_, ?_, media_type_unsupported e hnot⟩
  · rw [StaticBuilder.Resource.contentDispatch.eq_def]
    split <;> simp_all
  · intro p l hl hext
    unfold rewriteDj
    rw [hl]
    simp [hext, hdj]

/-- Witness for `claim_case_sensitive_dispatch` at the mixed-case extension
`DJ` and the logical path `/a/b.DJ`. -/
theorem StaticBuilder.claim_case_sensitive_dispatch_witness :
    Resource.contentDispatch (some "DJ") = .rawBytes ∧
    rewriteDj ["a", "b.DJ"] = ["a", "b.DJ"] ∧
    Resource.media_type (some "DJ") = .error (.unmimeable "DJ") := by
  have h := claim_case_sensitive_dispatch "DJ" (by decide) (by decide)
  exact ⟨h.1, h.2.1 ["a", "b.DJ"] "b.DJ" (by decide) (by decide), h.2.2⟩

/-- Front matter recognised by `render_djot` (src/lib.rs:10-14): an optional
title and an optional layout name. -/
structure StaticBuilder.DjotMetadata where
  title : Option String
  layout : Option String

/-- Model of `render_djot` (src/lib.rs:16-38) after its two external calls:
the front-matter parser has produced `meta` and the jotdown converter has
produced `bodyHtml` from the front-matter body.  The function assembles the
template-engine source exactly as the sequence of `push_str` calls does: an
optional extends directive, optional title blocks, then the body wrapped in
the content block. -/
def StaticBuilder.render_djot (meta : DjotMetadata) (bodyHtml : String) : String :=
  (match meta.layout with
    | some layout => "\x7b% extends \"" ++ layout ++ ".html\" %\x7d" ++ "\n"
    | none => "") ++
  ((match meta.title with
    | some title =>
      "\x7b% block headtitle %\x7d" ++ title ++ "\x7b% endblock headtitle %\x7d" ++
        "\x7b% block pagetitle %\x7d" ++ title ++ "\x7b% endblock pagetitle %\x7d" ++ "\n"
    | none => "") ++
  ("\x7b% block content %\x7d\n" ++ bodyHtml ++ "\x7b% endblock content %\x7d\n"))

/-- Containment of one string in another, read off their character lists. -/
def StaticBuilder.substrOf (needle hay : String) : Prop :=
  needle.data <:+: hay.data

/-- Leading containment: the needle is an initial segment of the hay. -/
def StaticBuilder.prefixOfStr (needle hay : String) : Prop :=
  needle.data <+: hay.data

/-- Appending strings concatenates their character lists. -/
theorem StaticBuilder.strData_append (s t : String) : (s ++ t).data = s.data ++ t.data :=
  rfl

/-- Prepending the empty string is the identity. -/
theorem StaticBuilder.str_empty_append (s : String) : "" ++ s = s :=
  rfl

/-- C7: with a title and no layout, the rendered template source is exactly
the two title blocks (each holding the identical literal title) followed by
the content block; in particular it contains a `headtitle` and a `pagetitle`
block each containing exactly the title, and it begins with a block, not with
an `extends` directive. -/
theorem StaticBuilder.claim_title_blocks (title bodyHtml : String) :
    render_djot ⟨some title, none⟩ bodyHtml =
      "\x7b% block headtitle %\x7d" ++ title ++ "\x7b% endblock headtitle %\x7d" ++
        "\x7b% block pagetitle %\x7d" ++ title ++ "\x7b% endblock pagetitle %\x7d" ++ "\n" ++
        "\x7b% block content %\x7d\n" ++ bodyHtml ++ "\x7b% endblock content %\x7d\n" ∧
    substrOf ("\x7b% block headtitle %\x7d" ++ title ++ "\x7b% endblock headtitle %\x7d")
      (render_djot ⟨some title, none⟩ bodyHtml) ∧
    substrOf ("\x7b% block pagetitle %\x7d" ++ title ++ "\x7b% endblock pagetitle %\x7d")
      (render_djot ⟨some title, none⟩ bodyHtml) ∧
    ¬ prefixOfStr "\x7b% extends" (render_djot ⟨some title, none⟩ bodyHtml) := by
  have heq : render_djot ⟨some title, none⟩ bodyHtml =
      "\x7b% block headtitle %\x7d" ++ title ++ "\x7b% endblock headtitle %\x7d" ++
        "\x7b% block pagetitle %\x7d" ++ title ++ "\x7b% endblock pagetitle %\x7d" ++ "\n" ++
        "\x7b% block content %\x7d\n" ++ bodyHtml ++ "\x7b% endblock content %\x7d\n" := by
    simp only [render_djot, str_empty_append, String.append_assoc]
  refine ⟨heq, ?_, ?_, ?_⟩
  · rw [substrOf, heq]
    refine ⟨[], ("\x7b% block pagetitle %\x7d" ++ title ++
      "\x7b% endblock pagetitle %\x7d" ++ "\n" ++ "\x7b% block content %\x7d\n" ++
      bodyHtml ++ "\x7b% endblock content %\x7d\n").data, ?_⟩
    simp [strData_append, List.append_assoc]
  · rw [substrOf, heq]
    refine ⟨("\x7b% block headtitle %\x7d" ++ title ++
      "\x7b% endblock headtitle %\x7d").data, ("\n" ++ "\x7b% block content %\x7d\n" ++
      bodyHtml ++ "\x7b% endblock content %\x7d\n").data, ?_⟩
    simp [strData_append, List.append_assoc]
  · intro hpre
    rw [prefixOfStr, heq] at hpre
    have hbpre : ("\x7b% block headtitle %\x7d" : String).data <+:
        ("\x7b% block headtitle %\x7d" ++ title ++ "\x7b% endblock headtitle %\x7d" ++
          "\x7b% block pagetitle %\x7d" ++ title ++ "\x7b% endblock pagetitle %\x7d" ++ "\n" ++
          "\x7b% block content %\x7d\n" ++ bodyHtml ++ "\x7b% endblock content %\x7d\n").data := by
      refine ⟨(title ++ "\x7b% endblock headtitle %\x7d" ++
        "\x7b% block pagetitle %\x7d" ++ title ++ "\x7b% endblock pagetitle %\x7d" ++ "\n" ++
        "\x7b% block content %\x7d\n" ++ bodyHtml ++ "\x7b% endblock content %\x7d\n").data, ?_⟩
      simp [strData_append, List.append_assoc]
    have hfalse : ("\x7b% extends" : String).data <+:
        ("\x7b% block headtitle %\x7d" : String).data :=
      List.prefix_of_prefix_length_le hpre hbpre (by decide)
    exact absurd hfalse (by decide)

/-- C8: with a layout `L`, the rendered template source begins with the
directive `extends "L.html"` (the layout name with `.html` appended),
placed before all block content. -/
theorem StaticBuilder.claim_layout_extends (layout : String) (title : Option String)
    (bodyHtml : String) :
    prefixOfStr ("\x7b% extends \"" ++ layout ++ ".html\" %\x7d\n")
      (render_djot ⟨title, some layout⟩ bodyHtml) := by
  rw [prefixOfStr]
  refine ⟨(render_djot ⟨title, none⟩ bodyHtml).data, ?_⟩
  cases title <;> simp [render_djot, strData_append, str_empty_append, List.append_assoc]

/-- HTTP methods, as far as the generated service adapter distinguishes
them. -/
inductive StaticBuilder.Method where
  | GET
  | HEAD
  | POST
  | PUT
  | DELETE
  | PATCH
  | OPTIONS
deriving DecidableEq

/-- One dispatch entry of the generated match: in frozen (release) builds the
content bytes are inlined, in live builds the entry re-renders from the
source path on every request (src/lib.rs:141-161). -/
inductive StaticBuilder.RespEntry where
  | frozen (content : List Nat) (mediaType : String)
  | live (source : String) (mediaType : String)
deriving DecidableEq

/-- Outcome of one request against the generated service. -/
inductive StaticBuilder.ServeOutcome where
  | methodNotAllowed
  | found (entry : RespEntry)
  | panicked (path : String)
deriving DecidableEq

/-- Model of the generated `StaticContent::response` (src/lib.rs:173-178): an
ordered match over the registered path strings, first matching arm winning,
falling through to `panic!("Where the heck did we get {p} from?!?")` for a
path with no arm. -/
def StaticBuilder.StaticContent.response (table : List (String × RespEntry))
    (path : String) : ServeOutcome :=
  match table.find? (fun e => e.1 == path) with
  | some e => .found e.2
  | none => .panicked path

/-- Model of the generated `StaticContent::call` (src/lib.rs:210-217): a
method other than HEAD or GET is answered with MethodNotAllowed before
dispatch runs; otherwise the path is dispatched through `response`. -/
def StaticBuilder.StaticContent.call (table : List (String × RespEntry))
    (m : Method) (path : String) : ServeOutcome :=
  if ¬ (m = .HEAD ∨ m = .GET) then .methodNotAllowed
  else StaticContent.response table path

/-- C6: every non-GET/HEAD request is answered with MethodNotAllowed
regardless of the path and of the registered table (so before dispatch can
run), and a GET or HEAD for a path registered in no table entry reaches the
distinguishable panic outcome, not a silent success or an ordinary 404. -/
theorem StaticBuilder.claim_serve_guard :
    (∀ table m path, m ≠ Method.GET → m ≠ Method.HEAD →
      StaticContent.call table m path = .methodNotAllowed) ∧
    (∀ table path, (∀ e ∈ table, e.1 ≠ path) →
      StaticContent.call table .GET path = .panicked path ∧
      StaticContent.call table .HEAD path = .panicked path) := by
  constructor
  · intro table m path h1 h2
    simp [StaticContent.call, h1, h2]
  · intro table path h
    have hfind : table.find? (fun e => e.1 == path) = none := by
      apply List.find?_eq_none.mpr
      intro e he
      simpa using h e he
    constructor <;> simp [StaticContent.call, StaticContent.response, hfind]

/-- Witness for `claim_serve_guard`: a POST to a registered path is rejected,
and a GET to an unregistered path panics. -/
theorem StaticBuilder.claim_serve_guard_witness :
    StaticContent.call [("/a", RespEntry.live "static/a" "text/plain")]
      Method.POST "/a" = .methodNotAllowed ∧
    StaticContent.call [("/a", RespEntry.live "static/a" "text/plain")]
      Method.GET "/b" = .panicked "/b" := by
  have h := claim_serve_guard
  exact ⟨h.1 _ Method.POST "/a" (by decide) (by decide),
    (h.2 [("/a", RespEntry.live "static/a" "text/plain")] "/b" (by decide)).1⟩

/-- A filesystem subtree, the scanner's input: regular files and directories,
each carrying its entry name. -/
inductive StaticBuilder.FsTree where
  | file (name : String)
  | dir (name : String) (children : List FsTree)

/-- Name of the entry at the root of a subtree. -/
def StaticBuilder.FsTree.name : FsTree → String
  | .file n => n
  | .dir n _ => n

/-- Hidden-entry test of `valid_static_file` (src/lib.rs:105-110), negated:
the entry name starts with `.`. -/
def StaticBuilder.hiddenEntry (name : String) : Bool :=
  match name.data with
  | [] => false
  | c :: _ => c = '.'

/-- Model of `env::var("PROFILE").unwrap() == "release"`: the build aborts
when the PROFILE environment variable is unset, otherwise compares it with
`release` (src/lib.rs:116 and 141). -/
def StaticBuilder.envRelease : Option String → Except BuildError Bool
  | none => .error .profileUnset
  | some v => .ok (v == "release")

/-- The `Resource` record (src/lib.rs:40-43): the source file's filesystem
path (as its display string) and the root-relative logical path (as
components). -/
structure StaticBuilder.Resource where
  source : String
  path : List String
deriving DecidableEq

mutual
/-- One entry of the `WalkDir` iteration of `scan_resources`
(src/lib.rs:112-123): a hidden entry (and, for a directory, its whole
subtree) is skipped by `filter_entry` before anything else runs; every
surviving entry first evaluates `env::var("PROFILE").unwrap()`, registers a
rebuild trigger (always for a directory, only in release mode for a file),
and every surviving file becomes a `Resource`.  Returns the rebuild-trigger
paths and the resources, in walk order. -/
def StaticBuilder.walkTree (profile : Option String) (srcPath : String)
    (lp : List String) : FsTree → Except BuildError (List String × List Resource)
  | .file n =>
    if hiddenEntry n then .ok ([], [])
    else do
      let rel ← envRelease profile
      .ok (if rel then [srcPath] else [], [⟨srcPath, lp⟩])
  | .dir n children =>
    if hiddenEntry n then .ok ([], [])
    else do
      let _ ← envRelease profile
      let rest ← walkChildren profile srcPath lp children
      .ok (srcPath :: rest.1, rest.2)

/-- Depth-first, in-order traversal of a directory's children, as `WalkDir`
yields them. -/
def StaticBuilder.walkChildren (profile : Option String) (srcPath : String)
    (lp : List String) : List FsTree → Except BuildError (List String × List Resource)
  | [] => .ok ([], [])
  | t :: ts => do
    let r1 ← walkTree profile (srcPath ++ "/" ++ t.name) (lp ++ [t.name]) t
    let r2 ← walkChildren profile srcPath lp ts
    .ok (r1.1 ++ r2.1, r1.2 ++ r2.2)
end

/-- Model of `scan_resources` (src/lib.rs:102-126) over a root directory
passed by its relative name (e.g. `static`): the root is itself a walked
entry, subject to the same hidden-entry filter as everything below it. -/
def StaticBuilder.scan_resources (profile : Option String) (root : FsTree) :
    Except BuildError (List String × List Resource) :=
  walkTree profile root.name [] root

/-- Splits a character list on `/`, for reading the file name off a source
path string. -/
def StaticBuilder.splitSlash : List Char → List (List Char)
  | [] => [[]]
  | c :: cs =>
    match splitSlash cs with
    | [] => if c = '/' then [[], []] else [[c]]
    | h :: t => if c = '/' then [] :: h :: t else (c :: h) :: t

/-- Extension of the final path component of a source path string, as
`self.source.extension()` computes it (src/lib.rs:76 and 84). -/
def StaticBuilder.pathExtension (s : String) : Option String :=
  match (splitSlash s.data).getLast? with
  | some fn => extension (String.mk fn)
  | none => none

/-- The inner loop of `write_static_content_module` (src/lib.rs:138-164): for
each URL path of one resource, consult PROFILE and push either a frozen match
arm (content bytes inlined) or a live match arm (re-render from the source
path), and record the path in the registration list.  Every alias is pushed
unconditionally — there is no check against paths already emitted. -/
def StaticBuilder.perPath (profile : Option String) (src : String) (c : List Nat)
    (m : String) : List String → Except BuildError (List (String × RespEntry) × List String)
  | [] => .ok ([], [])
  | p :: ps => do
    let rel ← envRelease profile
    let rest ← perPath profile src c m ps
    .ok ((p, if rel then .frozen c m else .live src m) :: rest.1, p :: rest.2)

/-- The outer loop of `write_static_content_module` (src/lib.rs:133-165): for
each resource in scan order, compute its content (`co` is the
`Resource::content` oracle, standing for the filesystem read plus rendering),
classify its media type from the source path's extension, then emit one entry
per alias. -/
def StaticBuilder.buildEntries (profile : Option String) (co : String → List Nat) :
    List Resource → Except BuildError (List (String × RespEntry) × List String)
  | [] => .ok ([], [])
  | r :: rs => do
    let m ← Resource.media_type (pathExtension r.source)
    let cur ← perPath profile r.source (co r.source) m (Resource.paths r.path)
    let rest ← buildEntries profile co rs
    .ok (cur.1 ++ rest.1, cur.2 ++ rest.2)

/-- Model of `write_static_content_module` (src/lib.rs:128-224): scan the
root, then synthesize the ordered list of dispatch match arms and the path
registration list. -/
def StaticBuilder.write_static_content_module (profile : Option String)
    (co : String → List Nat) (root : FsTree) :
    Except BuildError (List (String × RespEntry) × List String) := do
  let s ← scan_resources profile root
  buildEntries profile co s.2

/-- Binding a successful `Except` computation runs the continuation. -/
theorem StaticBuilder.exc_bind_ok {α β : Type} (a : α) (f : α → Except BuildError β) :
    (Except.ok a >>= f) = f a :=
  rfl

/-- Binding a failed `Except` computation propagates the failure. -/
theorem StaticBuilder.exc_bind_error {α β : Type} (e : BuildError)
    (f : α → Except BuildError β) :
    ((Except.error e : Except BuildError α) >>= f) = Except.error e :=
  rfl

/-- With PROFILE set, the per-alias loop always succeeds and emits one entry
and one registered path per alias, frozen exactly when PROFILE is
`release`. -/
theorem StaticBuilder.perPath_ok (v src : String) (c : List Nat) (m : String)
    (ps : List String) :
    perPath (some v) src c m ps =
      .ok (ps.map (fun p =>
        (p, if v == "release" then RespEntry.frozen c m else RespEntry.live src m)), ps) := by
  induction ps with
  | nil => rfl
  | cons p ps ih => simp [perPath, envRelease, ih, exc_bind_ok]

/-- C1 counterexample: under the root `static` holding `docs/index.html` and
`docs/index.dj`, the two discovered resources are distinct and their alias
sets intersect (both serve `/docs`), yet scanning and synthesis succeed,
emitting both resources' entries and registering the colliding paths twice —
nothing fails before route-table synthesis. -/
theorem StaticBuilder.claim_collision_not_detected :
    "/docs" ∈ Resource.paths ["docs", "index.html"] ∧
    "/docs" ∈ Resource.paths ["docs", "index.dj"] ∧
    scan_resources (some "release")
        (FsTree.dir "static" [FsTree.dir "docs"
          [FsTree.file "index.html", FsTree.file "index.dj"]]) =
      .ok (["static", "static/docs", "static/docs/index.html", "static/docs/index.dj"],
        [⟨"static/docs/index.html", ["docs", "index.html"]⟩,
         ⟨"static/docs/index.dj", ["docs", "index.dj"]⟩]) ∧
    write_static_content_module (some "release") (fun _ => [])
        (FsTree.dir "static" [FsTree.dir "docs"
          [FsTree.file "index.html", FsTree.file "index.dj"]]) =
      .ok ([("/docs/index.html", .frozen [] "text/html; charset=utf-8"),
            ("/docs", .frozen [] "text/html; charset=utf-8"),
            ("/docs/", .frozen [] "text/html; charset=utf-8"),
            ("/docs/index.html", .frozen [] "text/html; charset=utf-8"),
            ("/docs", .frozen [] "text/html; charset=utf-8"),
            ("/docs/", .frozen [] "text/html; charset=utf-8")],
        ["/docs/index.html", "/docs", "/docs/", "/docs/index.html", "/docs", "/docs/"]) ∧
    ¬ (["/docs/index.html", "/docs", "/docs/",
        "/docs/index.html", "/docs", "/docs/"].Nodup) := by
  have hscan : scan_resources (some "release")
      (FsTree.dir "static" [FsTree.dir "docs"
        [FsTree.file "index.html", FsTree.file "index.dj"]]) =
      .ok (["static", "static/docs", "static/docs/index.html", "static/docs/index.dj"],
        [⟨"static/docs/index.html", ["docs", "index.html"]⟩,
         ⟨"static/docs/index.dj", ["docs", "index.dj"]⟩]) := by
    simp [scan_resources, walkTree, walkChildren, FsTree.name, hiddenEntry,
      envRelease, exc_bind_ok]
  refine ⟨by decide, by decide, hscan, ?_, by decide⟩
  unfold write_static_content_module
  rw [hscan, exc_bind_ok]
  rfl

/-- C1 amended: route-table synthesis performs no collision detection.  With
PROFILE set and every resource's extension classifiable, synthesis succeeds
unconditionally — whether or not alias sets intersect — and registers exactly
the concatenation of every resource's alias list, duplicates included; in the
generated match the first arm for a path wins, so a duplicated path silently
resolves to the earliest resource rather than failing. -/
theorem StaticBuilder.claim_collision_first_wins (v : String) (co : String → List Nat)
    (rs : List Resource)
    (h : ∀ r ∈ rs, (Resource.media_type (pathExtension r.source)).isOk = true) :
    (∃ es, buildEntries (some v) co rs =
      .ok (es, rs.flatMap (fun r => Resource.paths r.path))) ∧
    (∀ p e t, StaticContent.response ((p, e) :: t) p = .found e) := by
  constructor
  · induction rs with
    | nil => exact ⟨[], rfl⟩
    | cons r rs ih =>
      obtain ⟨m, hm⟩ : ∃ m, Resource.media_type (pathExtension r.source) = .ok m := by
        have hok := h r (List.mem_cons_self r rs)
        cases hmt : Resource.media_type (pathExtension r.source) with
        | ok m => exact ⟨m, rfl⟩
        | error e => rw [hmt] at hok; simp [Except.isOk, Except.toBool] at hok
      obtain ⟨es, hes⟩ := ih (fun r' hr' => h r' (List.mem_cons_of_mem r hr'))
      refine ⟨(Resource.paths r.path).map (fun p =>
        (p, if v == "release" then RespEntry.frozen (co r.source) m
            else RespEntry.live r.source m)) ++ es, ?_⟩
      simp [buildEntries, hm, perPath_ok, hes, exc_bind_ok]
  · intro p e t
    simp [StaticContent.response]

/-- Witness for `claim_collision_first_wins` at two resources that both serve
`/docs`: synthesis succeeds with the colliding aliases registered twice, and
dispatch at `/docs` returns the first of two entries. -/
theorem StaticBuilder.claim_collision_first_wins_witness :
    (∃ es, buildEntries (some "release") (fun _ => [])
      [⟨"static/docs/index.html", ["docs", "index.html"]⟩,
       ⟨"static/docs/index.dj", ["docs", "index.dj"]⟩] =
      .ok (es, ["/docs/index.html", "/docs", "/docs/",
                "/docs/index.html", "/docs", "/docs/"])) ∧
    StaticContent.response
      [("/docs", RespEntry.frozen [] "text/html; charset=utf-8"),
       ("/docs", RespEntry.frozen [] "application/json")] "/docs" =
      .found (RespEntry.frozen [] "text/html; charset=utf-8") := by
  have h := claim_collision_first_wins "release" (fun _ => [])
    [⟨"static/docs/index.html", ["docs", "index.html"]⟩,
     ⟨"static/docs/index.dj", ["docs", "index.dj"]⟩] (by decide)
  obtain ⟨es, hes⟩ := h.1
  exact ⟨⟨es, by rw [hes]; rfl⟩, h.2 "/docs" (RespEntry.frozen [] "text/html; charset=utf-8")
    [("/docs", RespEntry.frozen [] "application/json")]⟩

/-- C10 counterexample: a root directory whose own name begins with the
hidden marker is pruned by `filter_entry` before any entry is visited, so
with PROFILE unset both the scan and the module synthesis return successfully
(empty), instead of aborting. -/
theorem StaticBuilder.claim_profile_unset_hidden_root :
    scan_resources none (FsTree.dir ".hidden" [FsTree.file "a.txt"]) = .ok ([], []) ∧
    write_static_content_module none (fun _ => [])
      (FsTree.dir ".hidden" [FsTree.file "a.txt"]) = .ok ([], []) := by
  have hscan : scan_resources none (FsTree.dir ".hidden" [FsTree.file "a.txt"]) =
      .ok ([], []) := by
    simp [scan_resources, walkTree, FsTree.name, hiddenEntry]
  refine ⟨hscan, ?_⟩
  unfold write_static_content_module
  rw [hscan, exc_bind_ok]
  rfl

/-- C10 amended: the frozen/live flag is the ambient PROFILE environment
variable, frozen exactly when it equals `release`; and with PROFILE unset,
for every root directory that is not itself hidden, the scan — and therefore
module synthesis — aborts with the PROFILE panic before producing any
resources or output, because the root is itself a visited entry. -/
theorem StaticBuilder.claim_profile_env_flag (root : FsTree) (co : String → List Nat)
    (h : hiddenEntry root.name = false) :
    scan_resources none root = .error .profileUnset ∧
    write_static_content_module none co root = .error .profileUnset ∧
    (∀ v src c m ps, perPath (some v) src c m ps =
      .ok (ps.map (fun p =>
        (p, if v == "release" then RespEntry.frozen c m else RespEntry.live src m)), ps)) := by
  have hscan : scan_resources none root = .error .profileUnset := by
    cases root with
    | file n =>
      simp only [FsTree.name] at h
      simp [scan_resources, walkTree, FsTree.name, h, envRelease, exc_bind_error]
    | dir n children =>
      simp only [FsTree.name] at h
      simp [scan_resources, walkTree, FsTree.name, h, envRelease, exc_bind_error]
  refine ⟨hscan, ?_, fun v src c m ps => perPath_ok v src c m ps⟩
  unfold write_static_content_module
  rw [hscan, exc_bind_error]

/-- Witness for `claim_profile_env_flag` at the non-hidden root `static`:
with PROFILE unset the scan aborts, and with PROFILE set to `debug` the
per-alias loop emits a live (not frozen) entry. -/
theorem StaticBuilder.claim_profile_env_flag_witness :
    scan_resources none (FsTree.dir "static" [FsTree.file "a.txt"]) =
      .error .profileUnset ∧
    perPath (some "debug") "s" [] "m" ["/a"] =
      .ok ([("/a", RespEntry.live "s" "m")], ["/a"]) := by
  have h := claim_profile_env_flag (FsTree.dir "static" [FsTree.file "a.txt"])
    (fun _ => []) (by decide)
  exact ⟨h.1, by rw [h.2.2 "debug" "s" [] "m" ["/a"]]; rfl⟩
